import Mathlib

/-!
Verification of the go-todolist service: a shallow embedding of the
repository's data model (`internal/todo/todo.go`), its PostgreSQL-backed
store (`internal/storage`, with the SQL statement semantics taken from the
query strings and `schema.sql`), and its HTTP layer
(`internal/api/handlers.go`, `internal/api` respond helpers).

Modelling conventions:
- `time.Time` values are modelled as `Nat` clock readings; the database
  clock `NOW()` is the `now` field of the database state.
- `gen_random_uuid()` is modelled as a fresh identifier derived from a
  counter in the database state (each insert consumes one counter value).
- Go slices of todos are modelled as `Option (List Todo)`: `none` is the
  nil slice (which `encoding/json` marshals as `null`), `some l` a
  non-nil slice with elements `l`.
- Fallible calls return `Except String α`, the `String` being the Go
  error's `Error()` message; the HTTP layer inspects that message.
-/

/-- Embedding of `todo.Todo` (internal/todo/todo.go): identifier, title,
optional description, completion flag, and the two timestamps. -/
structure Todo where
  id : String
  title : String
  description : String
  completed : Bool
  createdAt : Nat
  updatedAt : Nat
deriving Repr, DecidableEq

/-- State of the `todos` table (schema.sql) together with the generator
state for `gen_random_uuid()` and the database clock for `NOW()`. -/
structure DB where
  rows : List Todo
  nextId : Nat
  now : Nat
deriving Repr, DecidableEq

/-- Identifier produced by `gen_random_uuid()` for the n-th insert. -/
def genUUID (n : Nat) : String :=
  "uuid-" ++ toString n

/-- Single-quote character, written via its code point. -/
def singleQuote : String :=
  String.singleton (Char.ofNat 39)

/-- Message of `sql.ErrNoRows` from database/sql. -/
def sqlErrNoRows : String :=
  "sql: no rows in result set"

/-- Error message of `GetTodo` when the row is missing
(todo.go line 88, wrapping `sql.ErrNoRows`). -/
def getNotFoundMsg (id : String) : String :=
  ("storage: todo com id " ++ singleQuote ++ id) ++
    (singleQuote ++ " não encontrado: " ++ sqlErrNoRows)

/-- Error message of `UpdateTodo` when the row is missing
(todo.go line 138, wrapping `sql.ErrNoRows`). -/
def updateNotFoundMsg (id : String) : String :=
  ("storage: impossível atualizar, todo com id " ++ singleQuote ++ id) ++
    (singleQuote ++ " não encontrado: " ++ sqlErrNoRows)

/-- Error message of `DeleteTodo` when no row was affected
(todo.go line 159). -/
def deleteNotFoundMsg (id : String) : String :=
  ("storage: impossível deletar, todo com id " ++ singleQuote ++ id) ++
    (singleQuote ++ " não encontrado")

namespace PostgresStore

/-- Embedding of `PostgresStore.CreateTodo`: the INSERT stores title,
description and completed from the argument; `id`, `created_at` and
`updated_at` take their column defaults (`gen_random_uuid()`, `NOW()`,
`NOW()`), and RETURNING scans them back into the argument record. -/
def CreateTodo (db : DB) (t : Todo) : Except String Todo × DB :=
  let created : Todo :=
    { t with id := genUUID db.nextId, createdAt := db.now, updatedAt := db.now }
  (.ok created, { db with rows := db.rows ++ [created], nextId := db.nextId + 1 })

/-- Embedding of `PostgresStore.GetTodo`: SELECT ... WHERE id = $1 via
`QueryRow`, yielding `sql.ErrNoRows` (wrapped into the not-found message)
when no row matches. -/
def GetTodo (db : DB) (id : String) : Except String Todo × DB :=
  match db.rows.find? (fun r => r.id == id) with
  | some t => (.ok t, db)
  | none => (.error (getNotFoundMsg id), db)

/-- Comparison used by `ORDER BY created_at DESC`. -/
def createdDesc (a b : Todo) : Prop :=
  b.createdAt ≤ a.createdAt

instance : DecidableRel createdDesc :=
  fun a b => inferInstanceAs (Decidable (b.createdAt ≤ a.createdAt))

instance : IsTotal Todo createdDesc :=
  ⟨fun a b => Nat.le_total b.createdAt a.createdAt⟩

instance : IsTrans Todo createdDesc :=
  ⟨fun _ _ _ h1 h2 => Nat.le_trans h2 h1⟩

/-- Embedding of `PostgresStore.ListTodos`: SELECT all rows ordered by
`created_at DESC` (a stable sort on the creation timestamp); the Go loop
appends into a nil slice, so the result is the nil slice exactly when
there are no rows. -/
def ListTodos (db : DB) : Except String (Option (List Todo)) × DB :=
  let sorted := db.rows.insertionSort createdDesc
  (.ok (if sorted.isEmpty then none else some sorted), db)

/-- Embedding of `PostgresStore.UpdateTodo`: UPDATE sets title,
description, completed and `updated_at = NOW()` on the matching row;
RETURNING via `QueryRow` yields the updated row, or `sql.ErrNoRows`
(wrapped) when no row matched. -/
def UpdateTodo (db : DB) (id : String) (t : Todo) : Except String Todo × DB :=
  let newRows := db.rows.map (fun r =>
    if r.id == id then
      { r with title := t.title, description := t.description,
               completed := t.completed, updatedAt := db.now }
    else r)
  match newRows.find? (fun r => r.id == id) with
  | some u => (.ok u, { db with rows := newRows })
  | none => (.error (updateNotFoundMsg id), { db with rows := newRows })

/-- Embedding of `PostgresStore.DeleteTodo`: DELETE ... WHERE id = $1,
then the not-found error when `RowsAffected` is zero. -/
def DeleteTodo (db : DB) (id : String) : Except String Unit × DB :=
  let remaining := db.rows.filter (fun r => !(r.id == id))
  let rowsAffected := db.rows.length - remaining.length
  if rowsAffected == 0 then
    (.error (deleteNotFoundMsg id), { db with rows := remaining })
  else
    (.ok (), { db with rows := remaining })

end PostgresStore

/-- Embedding of the `storage.Store` interface: the five operations, with
the implementation state `σ` made explicit (the Go methods thread it
through the receiver and the database connection). -/
structure Store (σ : Type) where
  CreateTodo : σ → Todo → Except String Todo × σ
  GetTodo : σ → String → Except String Todo × σ
  ListTodos : σ → Except String (Option (List Todo)) × σ
  UpdateTodo : σ → String → Todo → Except String Todo × σ
  DeleteTodo : σ → String → Except String Unit × σ

/-- The concrete `PostgresStore` implementation of the interface. -/
def pgStore : Store DB where
  CreateTodo := PostgresStore.CreateTodo
  GetTodo := PostgresStore.GetTodo
  ListTodos := PostgresStore.ListTodos
  UpdateTodo := PostgresStore.UpdateTodo
  DeleteTodo := PostgresStore.DeleteTodo

/-- Character-list core of Go `strings.Contains`: does `sub` occur as a
contiguous run inside the second list? -/
def listContainsSub (sub : List Char) : List Char → Bool
  | [] => sub.isEmpty
  | c :: cs => sub.isPrefixOf (c :: cs) || listContainsSub sub cs

/-- Embedding of Go `strings.Contains s substr` (on valid UTF-8, byte-level
containment coincides with character-level containment). -/
def goContains (s sub : String) : Bool :=
  listContainsSub sub.data s.data

/-- Embedding of Go `strings.TrimPrefix`, on the character-list view of
the strings (byte-level and character-level prefixes coincide on valid
UTF-8). -/
def goTrimPrefix (s p : String) : String :=
  if p.data.isPrefixOf s.data then ⟨s.data.drop p.data.length⟩ else s

/-- The substring the HTTP layer looks for in store error messages
(handlers.go lines 108, 132, 145). -/
def notFoundIndicator : String :=
  "não encontrado"

/-- Payload shapes the handlers pass to `respondWithJSON`: an item, a
slice of items, the `map[string]string` error object, or Go `nil`. -/
inductive Payload where
  | todoItem : Todo → Payload
  | todoSlice : Option (List Todo) → Payload
  | errObj : String → Payload
  | nullPayload : Payload
deriving Repr, DecidableEq

/-- JSON string literal (escaping is irrelevant for the claims:
no message or field in scope needs escapes). -/
def marshalString (s : String) : String :=
  "\"" ++ s ++ "\""

/-- Embedding of `encoding/json` marshalling of `todo.Todo` with its field
tags: `description` carries `omitempty`; the `Nat`-modelled timestamps are
rendered by `toString`. -/
def marshalTodo (t : Todo) : String :=
  "\x7b\"id\":" ++ marshalString t.id
    ++ ",\"title\":" ++ marshalString t.title
    ++ (if t.description == "" then "" else ",\"description\":" ++ marshalString t.description)
    ++ ",\"completed\":" ++ (if t.completed then "true" else "false")
    ++ ",\"createdAt\":" ++ toString t.createdAt
    ++ ",\"updatedAt\":" ++ toString t.updatedAt
    ++ "\x7d"

/-- Embedding of `encoding/json` marshalling of a `[]todo.Todo` slice: the
nil slice marshals as `null`, a non-nil slice as a JSON array. -/
def marshalTodoSlice : Option (List Todo) → String
  | none => "null"
  | some l => "[" ++ String.intercalate "," (l.map marshalTodo) ++ "]"

/-- Embedding of `json.Marshal` on the payload shapes the handlers use.
On these shapes `json.Marshal` never fails, so the 500 fallback branch of
`respondWithJSON` is unreachable and the function is total. -/
def marshal : Payload → String
  | .todoItem t => marshalTodo t
  | .todoSlice l => marshalTodoSlice l
  | .errObj m => "\x7b\"error\":" ++ marshalString m ++ "\x7d"
  | .nullPayload => "null"

/-- Embedding of net/http `bodyAllowedForStatus`: responses with status
1xx, 204 or 304 must not include a body; the server discards writes to
them (`Write` returns `http.ErrBodyNotAllowed`, which `respondWithJSON`
ignores). -/
def bodyAllowedForStatus (status : Nat) : Bool :=
  if 100 ≤ status ∧ status ≤ 199 then false
  else if status == 204 then false
  else if status == 304 then false
  else true

/-- Final state of the `http.ResponseWriter` after a handler ran: header,
status and the body as actually sent on the wire. -/
structure ResponseWriter where
  contentType : Option String
  status : Nat
  body : String
deriving Repr, DecidableEq

/-- Embedding of `respondWithJSON` (internal/api): marshal the payload,
set `Content-Type`, write the status, write the body — which the server
discards when the status forbids a body (see `bodyAllowedForStatus`). -/
def respondWithJSON (code : Nat) (payload : Payload) : ResponseWriter :=
  let response := marshal payload
  { contentType := some "application/json", status := code,
    body := if bodyAllowedForStatus code then response else "" }

/-- Embedding of `respondWithError` (internal/api): log, then send the
JSON error object with the given status. -/
def respondWithError (code : Nat) (message : String) : ResponseWriter :=
  respondWithJSON code (.errObj message)

/-- Embedding of `handleCreateTodo` (handlers.go 68-87), with the JSON
decode of the request body abstracted as an `Except Unit Todo` argument
(`.error ()` is a malformed body) and the store as an interface value. -/
def handleCreateTodo {σ : Type} (st : Store σ) (s : σ) (body : Except Unit Todo) :
    ResponseWriter × σ :=
  match body with
  | .error _ => (respondWithError 400 "Payload da requisição inválido", s)
  | .ok newTodo =>
    if newTodo.title == "" then
      (respondWithError 400 "O título é obrigatório", s)
    else
      match st.CreateTodo s newTodo with
      | (.error _, s1) => (respondWithError 500 "Falha ao criar to-do", s1)
      | (.ok createdTodo, s1) => (respondWithJSON 201 (.todoItem createdTodo), s1)

/-- Embedding of `handleListTodos` (handlers.go 89-102): a nil slice from
the store is replaced by the empty slice before marshalling. -/
def handleListTodos {σ : Type} (st : Store σ) (s : σ) : ResponseWriter × σ :=
  match st.ListTodos s with
  | (.error _, s1) => (respondWithError 500 "Falha ao listar to-dos", s1)
  | (.ok todosRes, s1) =>
    let todos : Option (List Todo) :=
      match todosRes with
      | none => some []
      | some l => some l
    (respondWithJSON 200 (.todoSlice todos), s1)

/-- Embedding of `handleGetTodo` (handlers.go 104-116): a store error is
classified by searching its message for the not-found indicator. -/
def handleGetTodo {σ : Type} (st : Store σ) (s : σ) (id : String) :
    ResponseWriter × σ :=
  match st.GetTodo s id with
  | (.error err, s1) =>
    if goContains err notFoundIndicator then
      (respondWithError 404 "To-do não encontrado", s1)
    else
      (respondWithError 500 "Falha ao buscar to-do", s1)
  | (.ok foundTodo, s1) => (respondWithJSON 200 (.todoItem foundTodo), s1)

/-- Embedding of `handleUpdateTodo` (handlers.go 118-140). -/
def handleUpdateTodo {σ : Type} (st : Store σ) (s : σ) (id : String)
    (body : Except Unit Todo) : ResponseWriter × σ :=
  match body with
  | .error _ => (respondWithError 400 "Payload da requisição inválido", s)
  | .ok updatedTodo =>
    if updatedTodo.title == "" then
      (respondWithError 400 "O título é obrigatório", s)
    else
      match st.UpdateTodo s id updatedTodo with
      | (.error err, s1) =>
        if goContains err notFoundIndicator then
          (respondWithError 404 "To-do não encontrado para atualizar", s1)
        else
          (respondWithError 500 "Falha ao atualizar to-do", s1)
      | (.ok result, s1) => (respondWithJSON 200 (.todoItem result), s1)

/-- Embedding of `handleDeleteTodo` (handlers.go 142-153): on success the
handler sends status 204 with the `nil` payload. -/
def handleDeleteTodo {σ : Type} (st : Store σ) (s : σ) (id : String) :
    ResponseWriter × σ :=
  match st.DeleteTodo s id with
  | (.error err, s1) =>
    if goContains err notFoundIndicator then
      (respondWithError 404 "To-do não encontrado para deletar", s1)
    else
      (respondWithError 500 "Falha ao deletar to-do", s1)
  | (.ok _, s1) => (respondWithJSON 204 .nullPayload, s1)

/-- Embedding of the collection dispatcher `handleTodos`
(handlers.go 36-45): GET lists, POST creates, anything else 405. -/
def handleTodos {σ : Type} (st : Store σ) (s : σ) (method : String)
    (body : Except Unit Todo) : ResponseWriter × σ :=
  if method == "GET" then handleListTodos st s
  else if method == "POST" then handleCreateTodo st s body
  else (respondWithError 405 "Método não permitido", s)

/-- Embedding of the item dispatcher `handleTodoByID` (handlers.go 48-66):
the id is the path with the collection prefix trimmed; an empty id is
rejected with 400 before the method switch. -/
def handleTodoByID {σ : Type} (st : Store σ) (s : σ) (method : String)
    (path : String) (body : Except Unit Todo) : ResponseWriter × σ :=
  let id := goTrimPrefix path "/todos/"
  if id == "" then
    (respondWithError 400 "ID do To-Do não pode ser vazio", s)
  else if method == "GET" then handleGetTodo st s id
  else if method == "PUT" then handleUpdateTodo st s id body
  else if method == "DELETE" then handleDeleteTodo st s id
  else (respondWithError 405 "Método não permitido", s)

/-- Elements of a Go slice value: the nil slice has none. -/
def sliceElems : Option (List Todo) → List Todo
  | none => []
  | some l => l

/-- Fold of `CreateTodo` over a list of payloads: the database state after
creating each of them in order. -/
def createMany (db : DB) (ts : List Todo) : DB :=
  ts.foldl (fun d t => (PostgresStore.CreateTodo d t).2) db

/-- A store double whose every operation fails with a generic message:
exercises the 500 branch of the error classification. -/
def boomStore : Store Unit where
  CreateTodo := fun s _ => (.error "falha de conexão", s)
  GetTodo := fun s _ => (.error "falha de conexão", s)
  ListTodos := fun s => (.error "falha de conexão", s)
  UpdateTodo := fun s _ _ => (.error "falha de conexão", s)
  DeleteTodo := fun s _ => (.error "falha de conexão", s)

theorem respondWithError_status (code : Nat) (m : String) :
    (respondWithError code m).status = code := rfl

theorem listContainsSub_append_right (sub ys xs : List Char)
    (h : listContainsSub sub ys = true) :
    listContainsSub sub (xs ++ ys) = true := by
  induction xs with
  | nil => simpa using h
  | cons c cs ih => simp [listContainsSub, ih]

theorem goContains_append_right (a b sub : String)
    (h : goContains b sub = true) :
    goContains (a ++ b) sub = true := by
  unfold goContains at h ⊢
  rw [String.data_append]
  exact listContainsSub_append_right _ _ _ h

theorem getNotFoundMsg_contains (id : String) :
    goContains (getNotFoundMsg id) notFoundIndicator = true :=
  goContains_append_right _ _ _ (by decide)

theorem updateNotFoundMsg_contains (id : String) :
    goContains (updateNotFoundMsg id) notFoundIndicator = true :=
  goContains_append_right _ _ _ (by decide)

theorem deleteNotFoundMsg_contains (id : String) :
    goContains (deleteNotFoundMsg id) notFoundIndicator = true :=
  goContains_append_right _ _ _ (by decide)

theorem bodyAllowed_204 : bodyAllowedForStatus 204 = false := by decide

/-- C1: for a GET, PUT or DELETE item request whose store call returns an
error, the handler responds 404 exactly when the error message contains
the not-found indicator substring, and 500 for every other store error. -/
theorem storeError_maps_to_404_iff_notFound_else_500 {σ : Type}
    (st : Store σ) (s : σ) (id : String) (t : Todo)
    (e1 e2 e3 : String) (s1 s2 s3 : σ)
    (ht : ¬ t.title = "")
    (hg : st.GetTodo s id = (.error e1, s1))
    (hu : st.UpdateTodo s id t = (.error e2, s2))
    (hd : st.DeleteTodo s id = (.error e3, s3)) :
    (handleGetTodo st s id).1.status
        = (if goContains e1 notFoundIndicator then 404 else 500)
    ∧ (handleUpdateTodo st s id (.ok t)).1.status
        = (if goContains e2 notFoundIndicator then 404 else 500)
    ∧ (handleDeleteTodo st s id).1.status
        = (if goContains e3 notFoundIndicator then 404 else 500) := by
  have ht' : (t.title == "") = false := by
    simpa using ht
  refine ⟨?_, ?_, ?_⟩
  · simp only [handleGetTodo, hg]
    by_cases h : goContains e1 notFoundIndicator = true <;>
      simp [h, respondWithError, respondWithJSON]
  · simp only [handleUpdateTodo, ht', Bool.false_eq_true, if_false, hu]
    by_cases h : goContains e2 notFoundIndicator = true <;>
      simp [h, respondWithError, respondWithJSON]
  · simp only [handleDeleteTodo, hd]
    by_cases h : goContains e3 notFoundIndicator = true <;>
      simp [h, respondWithError, respondWithJSON]

theorem storeError_maps_to_404_iff_notFound_else_500_witness :
    (handleGetTodo pgStore ⟨[], 0, 0⟩ "x").1.status = 404
    ∧ (handleUpdateTodo pgStore ⟨[], 0, 0⟩ "x" (.ok ⟨"", "t", "", false, 0, 0⟩)).1.status = 404
    ∧ (handleDeleteTodo pgStore ⟨[], 0, 0⟩ "x").1.status = 404
    ∧ (handleGetTodo boomStore () "x").1.status = 500
    ∧ (handleUpdateTodo boomStore () "x" (.ok ⟨"", "t", "", false, 0, 0⟩)).1.status = 500
    ∧ (handleDeleteTodo boomStore () "x").1.status = 500 := by
  have h1 := storeError_maps_to_404_iff_notFound_else_500 pgStore ⟨[], 0, 0⟩ "x"
    ⟨"", "t", "", false, 0, 0⟩ (getNotFoundMsg "x") (updateNotFoundMsg "x")
    (deleteNotFoundMsg "x") ⟨[], 0, 0⟩ ⟨[], 0, 0⟩ ⟨[], 0, 0⟩
    (by decide) rfl rfl rfl
  have h2 := storeError_maps_to_404_iff_notFound_else_500 boomStore () "x"
    ⟨"", "t", "", false, 0, 0⟩ "falha de conexão" "falha de conexão" "falha de conexão"
    () () () (by decide) rfl rfl rfl
  exact ⟨h1.1.trans (by decide), h1.2.1.trans (by decide), h1.2.2.trans (by decide),
    h2.1.trans (by decide), h2.2.1.trans (by decide), h2.2.2.trans (by decide)⟩

/-- C3: a successful delete of an existing item responds 204 with an
empty body (the `nil` payload marshals to `null`, which the server
discards because a 204 response must not carry a body). -/
theorem delete_success_204_empty_body {σ : Type} (st : Store σ) (s s1 : σ)
    (id : String) (hd : st.DeleteTodo s id = (.ok (), s1)) :
    (handleDeleteTodo st s id).1.status = 204
    ∧ (handleDeleteTodo st s id).1.body = ""
    ∧ (handleDeleteTodo st s id).2 = s1 := by
  simp [handleDeleteTodo, hd, respondWithJSON, bodyAllowed_204]

theorem delete_success_204_empty_body_witness :
    (handleDeleteTodo pgStore ⟨[⟨"a", "t", "", false, 0, 0⟩], 1, 5⟩ "a").1.status = 204
    ∧ (handleDeleteTodo pgStore ⟨[⟨"a", "t", "", false, 0, 0⟩], 1, 5⟩ "a").1.body = ""
    ∧ (handleDeleteTodo pgStore ⟨[⟨"a", "t", "", false, 0, 0⟩], 1, 5⟩ "a").2 = ⟨[], 1, 5⟩ :=
  delete_success_204_empty_body pgStore ⟨[⟨"a", "t", "", false, 0, 0⟩], 1, 5⟩ ⟨[], 1, 5⟩ "a" rfl

/-- C4: a create or update whose decoded payload has an empty title is
answered with 400 and the store is never called — the handler returns the
incoming store state untouched, whatever the store implementation is. -/
theorem empty_title_400_store_never_called {σ : Type} (st : Store σ) (s : σ)
    (id : String) (t : Todo) (h : t.title = "") :
    handleCreateTodo st s (.ok t) = (respondWithError 400 "O título é obrigatório", s)
    ∧ handleUpdateTodo st s id (.ok t) = (respondWithError 400 "O título é obrigatório", s)
    ∧ (handleCreateTodo st s (.ok t)).1.status = 400
    ∧ (handleUpdateTodo st s id (.ok t)).1.status = 400 := by
  have hb : (t.title == "") = true := by
    simpa using h
  refine ⟨?_, ?_, ?_, ?_⟩ <;>
    simp [handleCreateTodo, handleUpdateTodo, hb, respondWithError, respondWithJSON]

theorem empty_title_400_store_never_called_witness :
    handleCreateTodo boomStore () (.ok ⟨"i", "", "d", true, 1, 2⟩)
      = (respondWithError 400 "O título é obrigatório", ())
    ∧ handleUpdateTodo boomStore () "x" (.ok ⟨"i", "", "d", true, 1, 2⟩)
      = (respondWithError 400 "O título é obrigatório", ())
    ∧ (handleCreateTodo boomStore () (.ok ⟨"i", "", "d", true, 1, 2⟩)).1.status = 400
    ∧ (handleUpdateTodo boomStore () "x" (.ok ⟨"i", "", "d", true, 1, 2⟩)).1.status = 400 :=
  empty_title_400_store_never_called boomStore () "x" ⟨"i", "", "d", true, 1, 2⟩ rfl

/-- C2: for an identifier not present in storage, `GetTodo` fails with the
not-found error, and `UpdateTodo` and `DeleteTodo` likewise fail with
not-found errors while leaving the database state unchanged (the messages
are exactly those the HTTP layer classifies as NotFound). -/
theorem unknown_id_notFound_storage_unchanged (db : DB) (id : String) (t : Todo)
    (h : ∀ r ∈ db.rows, r.id ≠ id) :
    (PostgresStore.GetTodo db id = (.error (getNotFoundMsg id), db)
      ∧ goContains (getNotFoundMsg id) notFoundIndicator = true)
    ∧ (PostgresStore.UpdateTodo db id t = (.error (updateNotFoundMsg id), db)
      ∧ goContains (updateNotFoundMsg id) notFoundIndicator = true)
    ∧ (PostgresStore.DeleteTodo db id = (.error (deleteNotFoundMsg id), db)
      ∧ goContains (deleteNotFoundMsg id) notFoundIndicator = true) := by
  have hfind : db.rows.find? (fun r => r.id == id) = none := by
    apply List.find?_eq_none.mpr
    intro x hx
    simpa using h x hx
  have hmap : db.rows.map (fun r =>
      if r.id == id then
        { r with title := t.title, description := t.description,
                 completed := t.completed, updatedAt := db.now }
      else r) = db.rows := by
    have hcongr : db.rows.map (fun r =>
        if r.id == id then
          { r with title := t.title, description := t.description,
                   completed := t.completed, updatedAt := db.now }
        else r) = db.rows.map (fun x => x) := by
      apply List.map_congr_left
      intro x hx
      have hxid : (x.id == id) = false := by simpa using h x hx
      simp [hxid]
    simpa using hcongr
  refine ⟨⟨?_, getNotFoundMsg_contains id⟩, ⟨?_, updateNotFoundMsg_contains id⟩,
    ⟨?_, deleteNotFoundMsg_contains id⟩⟩
  · simp only [PostgresStore.GetTodo]
    rw [hfind]
  · simp only [PostgresStore.UpdateTodo]
    rw [hmap, hfind]
  · have hfilter : db.rows.filter (fun r => !(r.id == id)) = db.rows := by
      apply List.filter_eq_self.mpr
      intro x hx
      simpa using h x hx
    simp only [PostgresStore.DeleteTodo]
    rw [hfilter]
    simp [Nat.sub_self]

theorem unknown_id_notFound_storage_unchanged_witness :
    (PostgresStore.GetTodo ⟨[⟨"a", "t", "", false, 0, 0⟩], 1, 5⟩ "b"
        = (.error (getNotFoundMsg "b"), ⟨[⟨"a", "t", "", false, 0, 0⟩], 1, 5⟩)
      ∧ goContains (getNotFoundMsg "b") notFoundIndicator = true)
    ∧ (PostgresStore.UpdateTodo ⟨[⟨"a", "t", "", false, 0, 0⟩], 1, 5⟩ "b" ⟨"", "u", "", true, 0, 0⟩
        = (.error (updateNotFoundMsg "b"), ⟨[⟨"a", "t", "", false, 0, 0⟩], 1, 5⟩)
      ∧ goContains (updateNotFoundMsg "b") notFoundIndicator = true)
    ∧ (PostgresStore.DeleteTodo ⟨[⟨"a", "t", "", false, 0, 0⟩], 1, 5⟩ "b"
        = (.error (deleteNotFoundMsg "b"), ⟨[⟨"a", "t", "", false, 0, 0⟩], 1, 5⟩)
      ∧ goContains (deleteNotFoundMsg "b") notFoundIndicator = true) :=
  unknown_id_notFound_storage_unchanged ⟨[⟨"a", "t", "", false, 0, 0⟩], 1, 5⟩ "b"
    ⟨"", "u", "", true, 0, 0⟩ (by decide)

/-- C7: updating an existing item with a non-empty title overwrites
title, description and completion, stamps the update timestamp with the
database clock, and preserves the identifier and creation timestamp; the
other rows and the rest of the database state are untouched. -/
theorem update_overwrites_fields_preserves_id_createdAt (db : DB) (id : String)
    (t r : Todo)
    (hfind : db.rows.find? (fun x => x.id == id) = some r)
    (ht : ¬ t.title = "") :
    ∃ u db2, PostgresStore.UpdateTodo db id t = (.ok u, db2)
      ∧ u.id = r.id ∧ u.createdAt = r.createdAt
      ∧ u.title = t.title ∧ u.description = t.description
      ∧ u.completed = t.completed ∧ u.updatedAt = db.now
      ∧ db2.nextId = db.nextId ∧ db2.now = db.now
      ∧ db2.rows.length = db.rows.length
      ∧ (∀ x ∈ db.rows, ¬ x.id = id → x ∈ db2.rows) := by
  have hr : r.id = id := by
    have := List.find?_some hfind
    simpa using this
  have hfr : (db.rows.map (fun x =>
      if x.id == id then
        { x with title := t.title, description := t.description,
                 completed := t.completed, updatedAt := db.now }
      else x)).find? (fun x => x.id == id)
      = some { r with title := t.title, description := t.description,
                      completed := t.completed, updatedAt := db.now } := by
    rw [List.find?_map]
    have hcomp : ((fun x : Todo => x.id == id) ∘ (fun x : Todo =>
        if x.id == id then
          { x with title := t.title, description := t.description,
                   completed := t.completed, updatedAt := db.now }
        else x)) = fun x : Todo => x.id == id := by
      funext x
      by_cases hx : (x.id == id) = true <;> simp [Function.comp, hx]
    rw [hcomp, hfind]
    simp [Option.map, hr]
  refine ⟨{ r with
      title := t.title,
      description := t.description,
      completed := t.completed,
      updatedAt := db.now },
    { db with
      rows := db.rows.map (fun x =>
        if x.id == id then
          { x with title := t.title, description := t.description,
                   completed := t.completed, updatedAt := db.now }
        else x) },
    ?_, rfl, rfl, rfl, rfl, rfl, rfl, rfl, rfl, ?_, ?_⟩
  · simp only [PostgresStore.UpdateTodo, hfr]
  · simp
  · intro x hx hne
    have hxid : (x.id == id) = false := by simpa using hne
    have hmem := List.mem_map_of_mem (f := fun x : Todo =>
      if x.id == id then
        { x with title := t.title, description := t.description,
                 completed := t.completed, updatedAt := db.now }
      else x) hx
    simpa [hxid] using hmem

theorem update_overwrites_fields_preserves_id_createdAt_witness :
    ∃ u db2, PostgresStore.UpdateTodo ⟨[⟨"a", "t", "d0", false, 3, 3⟩], 1, 9⟩ "a"
        ⟨"zz", "new", "nd", true, 7, 8⟩ = (.ok u, db2)
      ∧ u.id = (⟨"a", "t", "d0", false, 3, 3⟩ : Todo).id
      ∧ u.createdAt = (⟨"a", "t", "d0", false, 3, 3⟩ : Todo).createdAt
      ∧ u.title = (⟨"zz", "new", "nd", true, 7, 8⟩ : Todo).title
      ∧ u.description = (⟨"zz", "new", "nd", true, 7, 8⟩ : Todo).description
      ∧ u.completed = (⟨"zz", "new", "nd", true, 7, 8⟩ : Todo).completed
      ∧ u.updatedAt = (⟨[⟨"a", "t", "d0", false, 3, 3⟩], 1, 9⟩ : DB).now
      ∧ db2.nextId = (⟨[⟨"a", "t", "d0", false, 3, 3⟩], 1, 9⟩ : DB).nextId
      ∧ db2.now = (⟨[⟨"a", "t", "d0", false, 3, 3⟩], 1, 9⟩ : DB).now
      ∧ db2.rows.length = (⟨[⟨"a", "t", "d0", false, 3, 3⟩], 1, 9⟩ : DB).rows.length
      ∧ (∀ x ∈ (⟨[⟨"a", "t", "d0", false, 3, 3⟩], 1, 9⟩ : DB).rows,
          ¬ x.id = "a" → x ∈ db2.rows) :=
  update_overwrites_fields_preserves_id_createdAt
    ⟨[⟨"a", "t", "d0", false, 3, 3⟩], 1, 9⟩ "a" ⟨"zz", "new", "nd", true, 7, 8⟩
    ⟨"a", "t", "d0", false, 3, 3⟩ (by decide) (by decide)

/-- C8: creating an item with a non-empty title yields a record whose
identifier is the one generated by the store and whose creation and
update timestamps are equal (both are the insert-time database clock). -/
theorem create_server_id_and_equal_timestamps (db : DB) (t : Todo)
    (ht : ¬ t.title = "") :
    ∃ u db2, PostgresStore.CreateTodo db t = (.ok u, db2)
      ∧ u.id = genUUID db.nextId
      ∧ u.createdAt = db.now
      ∧ u.createdAt = u.updatedAt :=
  ⟨_, _, rfl, rfl, rfl, rfl⟩

theorem create_server_id_and_equal_timestamps_witness :
    ∃ u db2, PostgresStore.CreateTodo ⟨[], 4, 11⟩ ⟨"client-id", "t", "d", true, 99, 98⟩
        = (.ok u, db2)
      ∧ u.id = genUUID (⟨[], 4, 11⟩ : DB).nextId
      ∧ u.createdAt = (⟨[], 4, 11⟩ : DB).now
      ∧ u.createdAt = u.updatedAt :=
  create_server_id_and_equal_timestamps ⟨[], 4, 11⟩ ⟨"client-id", "t", "d", true, 99, 98⟩
    (by decide)

/-- C10: the insert performed for a create request uses only the title,
description and completed fields of the decoded payload, so two payloads
differing only in the client-supplied id, createdAt or updatedAt produce
identical store calls and identical HTTP outcomes. -/
theorem create_independent_of_client_server_fields (db : DB) (t1 t2 : Todo)
    (h1 : t1.title = t2.title) (h2 : t1.description = t2.description)
    (h3 : t1.completed = t2.completed) :
    PostgresStore.CreateTodo db t1 = PostgresStore.CreateTodo db t2
    ∧ handleCreateTodo pgStore db (.ok t1) = handleCreateTodo pgStore db (.ok t2) := by
  obtain ⟨i1, ti1, d1, c1, ca1, ua1⟩ := t1
  obtain ⟨i2, ti2, d2, c2, ca2, ua2⟩ := t2
  simp only at h1 h2 h3
  subst h1
  subst h2
  subst h3
  constructor
  · simp [PostgresStore.CreateTodo]
  · by_cases hti : (ti1 == "") = true <;>
      simp [handleCreateTodo, hti, pgStore, PostgresStore.CreateTodo]

theorem create_independent_of_client_server_fields_witness :
    PostgresStore.CreateTodo ⟨[], 0, 3⟩ ⟨"evil", "t", "d", true, 77, 88⟩
      = PostgresStore.CreateTodo ⟨[], 0, 3⟩ ⟨"", "t", "d", true, 0, 0⟩
    ∧ handleCreateTodo pgStore ⟨[], 0, 3⟩ (.ok ⟨"evil", "t", "d", true, 77, 88⟩)
      = handleCreateTodo pgStore ⟨[], 0, 3⟩ (.ok ⟨"", "t", "d", true, 0, 0⟩) :=
  create_independent_of_client_server_fields ⟨[], 0, 3⟩ ⟨"evil", "t", "d", true, 77, 88⟩
    ⟨"", "t", "d", true, 0, 0⟩ rfl rfl rfl

/-- C9: a method outside the route's mapping yields 405 on both route
families, and an item request whose id segment (the path after the
collection prefix) is empty yields 400 — the empty-id check runs before
the method switch, so it wins on the overlap. -/
theorem unmatched_method_405_empty_id_400 {σ : Type} (st : Store σ) (s : σ)
    (method path : String) (body : Except Unit Todo) :
    (¬ method = "GET" → ¬ method = "POST" →
      (handleTodos st s method body).1.status = 405)
    ∧ (goTrimPrefix path "/todos/" = "" →
      (handleTodoByID st s method path body).1.status = 400)
    ∧ (¬ goTrimPrefix path "/todos/" = "" →
      ¬ method = "GET" → ¬ method = "PUT" → ¬ method = "DELETE" →
      (handleTodoByID st s method path body).1.status = 405) := by
  refine ⟨?_, ?_, ?_⟩
  · intro h1 h2
    have b1 : (method == "GET") = false := by simpa using h1
    have b2 : (method == "POST") = false := by simpa using h2
    simp [handleTodos, b1, b2, respondWithError, respondWithJSON]
  · intro h
    simp [handleTodoByID, h, respondWithError, respondWithJSON]
  · intro h h1 h2 h3
    have b0 : (goTrimPrefix path "/todos/" == "") = false := by simpa using h
    have b1 : (method == "GET") = false := by simpa using h1
    have b2 : (method == "PUT") = false := by simpa using h2
    have b3 : (method == "DELETE") = false := by simpa using h3
    simp [handleTodoByID, b0, b1, b2, b3, respondWithError, respondWithJSON]

theorem unmatched_method_405_empty_id_400_witness :
    (handleTodos boomStore () "PATCH" (.error ())).1.status = 405
    ∧ (handleTodoByID boomStore () "DELETE" "/todos/" (.error ())).1.status = 400
    ∧ (handleTodoByID boomStore () "PATCH" "/todos/abc" (.error ())).1.status = 405 := by
  have h1 := unmatched_method_405_empty_id_400 boomStore () "PATCH" "/todos/abc" (.error ())
  have h2 := unmatched_method_405_empty_id_400 boomStore () "DELETE" "/todos/" (.error ())
  exact ⟨h1.1 (by decide) (by decide), h2.2.1 (by decide),
    h1.2.2 (by decide) (by decide) (by decide) (by decide)⟩

theorem bodyAllowed_200 : bodyAllowedForStatus 200 = true := by decide

theorem handleListTodos_pg (db : DB) :
    handleListTodos pgStore db
      = (respondWithJSON 200
          (.todoSlice (some (db.rows.insertionSort PostgresStore.createdDesc))), db) := by
  simp only [handleListTodos, pgStore, PostgresStore.ListTodos]
  cases hs : db.rows.insertionSort PostgresStore.createdDesc with
  | nil => simp [hs]
  | cons a l => simp [hs]

/-- C5 counterexample: on empty storage, the store's list operation
returns the nil slice (`none`) — an absent value whose JSON encoding is
`null` — not an empty sequence. -/
theorem listTodos_empty_returns_nil_slice :
    PostgresStore.ListTodos ⟨[], 0, 0⟩ = (.ok none, ⟨[], 0, 0⟩)
    ∧ marshal (.todoSlice none) = "null" :=
  ⟨rfl, rfl⟩

/-- C5 (amended): the store's list yields the nil slice when storage is
empty, and the HTTP handler substitutes an empty slice for it, so the
collection GET always responds 200 with a JSON array — `"[]"` on empty
storage — and never with `null`. -/
theorem list_http_200_json_array_not_null (db : DB) :
    (handleListTodos pgStore db).1.status = 200
    ∧ (handleListTodos pgStore db).1.body.data.head? = some '['
    ∧ ¬ (handleListTodos pgStore db).1.body = "null"
    ∧ (db.rows = [] → (handleListTodos pgStore db).1.body = "[]") := by
  have hb : (handleListTodos pgStore db).1.body
      = "[" ++ String.intercalate ","
          ((db.rows.insertionSort PostgresStore.createdDesc).map marshalTodo) ++ "]" := by
    rw [handleListTodos_pg]
    simp [respondWithJSON, marshal, marshalTodoSlice, bodyAllowed_200]
  have hhead : (handleListTodos pgStore db).1.body.data.head? = some '[' := by
    rw [hb, String.data_append, String.data_append]
    rfl
  refine ⟨?_, hhead, ?_, ?_⟩
  · rw [handleListTodos_pg]
    rfl
  · intro hcontra
    rw [hcontra] at hhead
    exact absurd hhead (by decide)
  · intro hrows
    rw [hb, hrows]
    decide

theorem list_http_200_json_array_not_null_witness :
    (handleListTodos pgStore ⟨[], 0, 0⟩).1.status = 200
    ∧ (handleListTodos pgStore ⟨[], 0, 0⟩).1.body = "[]" := by
  have h := list_http_200_json_array_not_null ⟨[], 0, 0⟩
  exact ⟨h.1, h.2.2.2 rfl⟩

theorem sliceElems_if (l : List Todo) :
    sliceElems (if l.isEmpty then none else some l) = l := by
  cases l <;> simp [sliceElems]

theorem createMany_rows_length (ts : List Todo) (db : DB) :
    (createMany db ts).rows.length = db.rows.length + ts.length := by
  induction ts generalizing db with
  | nil => simp [createMany]
  | cons t ts ih =>
    have h1 : createMany db (t :: ts) = createMany (PostgresStore.CreateTodo db t).2 ts := rfl
    rw [h1, ih]
    simp [PostgresStore.CreateTodo]
    omega

/-- C6: the list operation returns exactly the persisted rows (a
permutation of them) ordered by creation time descending, and after
creating N items from empty storage it returns exactly N items. -/
theorem list_all_rows_sorted_desc_count (db : DB) (ts : List Todo) :
    (∃ v, PostgresStore.ListTodos db = (.ok v, db)
      ∧ List.Perm (sliceElems v) db.rows
      ∧ List.Pairwise (fun a b => b.createdAt ≤ a.createdAt) (sliceElems v))
    ∧ (∃ v, (PostgresStore.ListTodos (createMany ⟨[], 0, 0⟩ ts)).1 = .ok v
      ∧ (sliceElems v).length = ts.length) := by
  constructor
  · refine ⟨_, rfl, ?_, ?_⟩
    · rw [sliceElems_if]
      exact List.perm_insertionSort PostgresStore.createdDesc db.rows
    · rw [sliceElems_if]
      have hs := List.sorted_insertionSort PostgresStore.createdDesc db.rows
      exact hs.imp (fun h => h)
  · refine ⟨_, rfl, ?_⟩
    rw [sliceElems_if]
    rw [(List.perm_insertionSort PostgresStore.createdDesc _).length_eq]
    simpa using createMany_rows_length ts ⟨[], 0, 0⟩
